import Mathlib

/-!
Verification of the streaming response assembler of the agentic-commerce demo
frontend: the SSE line framer, the event-to-message reducer, the session
bootstrapper with retry/backoff, and the backend health poller, as implemented
in the React `App` component.
-/

set_option maxRecDepth 4000

namespace AgenticCommerce

/-- Message kind of a transcript entry: the TS union type `"human" | "ai"`. -/
inductive MsgType where
  | human
  | ai
deriving DecidableEq

/-- One transcript entry, mirroring the `MessageWithAgent` interface.
`agent := none` models the field being absent (`undefined`). -/
structure MessageWithAgent where
  type : MsgType
  content : String
  id : String
  agent : Option String
deriving DecidableEq

/-- Payload of a `ProcessedEvent`: the object literal
`\x7b type: 'text', content: textParts.join(" ") \x7d`. -/
structure EventData where
  type : String
  content : String
deriving DecidableEq

/-- Attribution record stored in the `messageEvents` map. -/
structure ProcessedEvent where
  title : String
  data : EventData
deriving DecidableEq

/-- One `content.parts` element of a parsed SSE JSON payload; `text` is
optional. -/
structure Part where
  text : Option String
deriving DecidableEq

/-- The optional `content` object of a parsed SSE JSON payload. -/
structure FrameContent where
  parts : Option (List Part)
deriving DecidableEq

/-- Result of `JSON.parse` on one dispatched `data:` payload: either a parse
failure (`invalid`) or a parsed object with its optional `content` and
optional `author` fields. -/
inductive Frame where
  | invalid
  | valid (content : Option FrameContent) (author : Option String)
deriving DecidableEq

/-- JS truthiness of an optional string: `undefined`/`null` and the empty
string are falsy. -/
def jsTruthyStr : Option String → Bool
  | none => false
  | some s => !(s == "")

/-- Whitespace set recognised by JS `String.prototype.trim` for the
characters that occur in this protocol. -/
def isWS (c : Char) : Bool :=
  c == ' ' || c == '\t' || c == '\n' || c == '\r'

/-- Trim of a character list: drop whitespace from both ends. -/
def trimChars (l : List Char) : List Char :=
  ((l.dropWhile isWS).reverse.dropWhile isWS).reverse

/-- JS `String.prototype.trim`, executable over the character data. -/
def jsTrim (s : String) : String :=
  ⟨trimChars s.data⟩

/-- JS `Array.prototype.join(" ")`. -/
def joinSpace : List String → String
  | [] => ""
  | [s] => s
  | s :: rest => s ++ " " ++ joinSpace rest

/-- Embeds `extractDataFromSSE`: on parse failure returns
`([], "")`; otherwise `textParts` is
`parsed.content?.parts?.filter(p => p.text).map(p => p.text) || []`
and `agent` is `parsed.author || ''`. -/
def extractDataFromSSE : Frame → List String × String
  | .invalid => ([], "")
  | .valid content author =>
    let parts := (content.bind FrameContent.parts).getD []
    let textParts := (parts.filter fun p => jsTruthyStr p.text).filterMap Part.text
    let agent :=
      match author with
      | some a => if a == "" then "" else a
      | none => ""
    (textParts, agent)

/-- Embeds `getEventTitle`. -/
def getEventTitle (agentName : String) : String :=
  if agentName = "product_agent" then "Searching for Products"
  else if agentName = "cart_agent" then "Managing Shopping Cart"
  else if agentName = "shopper_agent" then "Shopping Assistant"
  else "Processing (" ++ (if agentName == "" then "Unknown Agent" else agentName) ++ ")"

/-- The `messageEvents` JS `Map`, as an association list. -/
abbrev EventMap := List (String × List ProcessedEvent)

/-- Models `Map.get` with the `|| []` default used at the call site. -/
def mapGet (m : EventMap) (k : String) : List ProcessedEvent :=
  match m.find? fun p => p.1 == k with
  | some p => p.2
  | none => []

/-- Models `Map.set`: replace the binding in place, or append a fresh one. -/
def mapSet : EventMap → String → List ProcessedEvent → EventMap
  | [], k, v => [(k, v)]
  | (k', v') :: rest, k, v =>
    if k' == k then (k, v) :: rest else (k', v') :: mapSet rest k v

/-- The React state touched by the assembler, as one record: the `useState`
hooks plus the two `useRef` cells (`currentAgentRef`, `accumulatedTextRef`). -/
structure AppState where
  userId : Option String
  sessionId : Option String
  appName : Option String
  messages : List MessageWithAgent
  displayData : Option String
  isLoading : Bool
  messageEvents : EventMap
  currentAgent : String
  accumulatedText : String
deriving DecidableEq

/-- One iteration of the `for (const text of textParts)` loop: extend the
accumulator with `text + " "`, rewrite every message with the target id to the
trimmed accumulator (agent updated by `currentAgentRef.current || msg.agent`),
and publish `displayData`. -/
def applyFragment (aiMessageId : String) (st : AppState) (text : String) : AppState :=
  let acc := st.accumulatedText ++ text ++ " "
  { st with
    accumulatedText := acc
    messages := st.messages.map fun msg =>
      if msg.id == aiMessageId then
        { msg with
          content := jsTrim acc
          agent := if st.currentAgent == "" then msg.agent else some st.currentAgent }
      else msg
    displayData := some (jsTrim acc) }

/-- Embeds `processSseEventData`: extract the frame, update the tracked
current agent when the frame's author is non-empty and different, and if any
text fragments are present record a `ProcessedEvent` and fold the fragments
into the target message. -/
def processSseEventData (frame : Frame) (aiMessageId : String) (st : AppState) : AppState :=
  let extracted := extractDataFromSSE frame
  let textParts := extracted.1
  let agent := extracted.2
  let st1 :=
    if !(agent == "") && agent != st.currentAgent then { st with currentAgent := agent } else st
  if textParts.length > 0 then
    let eventTitle := getEventTitle agent
    let st2 :=
      { st1 with
        messageEvents :=
          mapSet st1.messageEvents aiMessageId
            (mapGet st1.messageEvents aiMessageId ++
              [{ title := eventTitle
                 data := { type := "text", content := joinSpace textParts } }]) }
    textParts.foldl (applyFragment aiMessageId) st2
  else st1

/-- Processing a whole sequence of dispatched frames, in arrival order. -/
def processFrames (aiMessageId : String) (frames : List Frame) (st : AppState) : AppState :=
  frames.foldl (fun s f => processSseEventData f aiMessageId s) st

/-- All text fragments carried by a frame sequence, in arrival order. -/
def allFragments (frames : List Frame) : List String :=
  (frames.map fun f => (extractDataFromSSE f).1).flatten

/-! ### SSE line framer

The read loop of `handleSubmit`: decoded chunks are appended to a buffer and
every segment up to a `'\n'` is extracted; the remainder stays buffered. We
model decoded text as `List Char`. -/

/-- Splits a buffer into the complete (newline-terminated) lines it contains
and the trailing remainder after the last newline, exactly like the inner
`while ((line = buffer.indexOf('\n')) >= 0)` loop run to exhaustion. -/
def extractLines : List Char → List (List Char) × List Char
  | [] => ([], [])
  | c :: rest =>
    let p := extractLines rest
    if c = '\n' then ([] :: p.1, p.2)
    else
      match p.1 with
      | [] => ([], c :: p.2)
      | l :: ls => ((c :: l) :: ls, p.2)

/-- The read loop over a list of decoded chunks: after each chunk the complete
lines are extracted; when the stream reports completion the loop breaks and
the remaining buffer is discarded. -/
def sseFramerGo : List Char → List (List Char) → List (List Char)
  | _, [] => []
  | buf, c :: cs =>
    (extractLines (buf ++ c)).1 ++ sseFramerGo (extractLines (buf ++ c)).2 cs

/-- All complete lines yielded by the read loop, starting from an empty
buffer. -/
def sseFramer (chunks : List (List Char)) : List (List Char) :=
  sseFramerGo [] chunks

/-- The literal `data:` tag checked by `currentLine.startsWith('data:')`. -/
def dataTag : List Char := ['d', 'a', 't', 'a', ':']

/-- Dispatch decision for one extracted line: trim it, and when it starts
with `data:` strip the five tag characters and trim the payload
(`currentLine.substring(5).trim()`). -/
def toDispatch (line : List Char) : Option (List Char) :=
  let t := trimChars line
  if dataTag.isPrefixOf t then some (trimChars (t.drop 5)) else none

/-- The ordered sequence of `data:` payloads handed to the reducer. -/
def sseDispatched (chunks : List (List Char)) : List (List Char) :=
  (sseFramer chunks).filterMap toDispatch

/-! ### Session bootstrap and query submission -/

/-- The session triple returned by `createSession`
(`data.userId`, `data.id`, `data.appName`). -/
structure Session where
  userId : String
  sessionId : String
  appName : String
deriving DecidableEq

/-- The loop body of `retryWithBackoff`, with the outcome of the `i`-th
`fn()` call and the wall-clock elapsed before the `i`-th iteration supplied as
oracles. Returns the result together with the number of `fn()` calls made.
On fuel exhaustion the last attempt's error is rethrown (`throw lastError!`);
when the elapsed time exceeds `maxDuration` a distinct timeout error is
thrown before calling `fn`. -/
def retryGo (fn : Nat → Except String Session) (elapsedAt : Nat → Nat) (maxDuration : Nat) :
    Nat → Nat → Option String → Except String Session × Nat
  | 0, attempt, lastError => (.error (lastError.getD ("undefined")), attempt)
  | fuel + 1, attempt, _ =>
    if maxDuration < elapsedAt attempt then
      (.error ("Retry timeout after " ++ toString maxDuration ++ "ms"), attempt)
    else
      match fn attempt with
      | .ok s => (.ok s, attempt + 1)
      | .error e => retryGo fn elapsedAt maxDuration fuel (attempt + 1) (some e)

/-- Embeds `retryWithBackoff(fn, maxRetries, maxDuration)`. -/
def retryWithBackoff (fn : Nat → Except String Session) (elapsedAt : Nat → Nat)
    (maxRetries maxDuration : Nat) : Except String Session × Nat :=
  retryGo fn elapsedAt maxDuration maxRetries 0 none

/-- The `if (!currentSessionId || !currentUserId || !currentAppName)` guard,
negated: all three state values are truthy. -/
def sessionEstablished (st : AppState) : Bool :=
  jsTruthyStr st.sessionId && jsTruthyStr st.userId && jsTruthyStr st.appName

/-- Environment of one `handleSubmit` call: oracles for the session-creation
attempts and their timing, the decoded chunks delivered by the run request,
an error thrown by the fetch or mid-stream (after those chunks) if any,
the `JSON.parse` oracle, and the three `Date.now()`-derived ids. -/
structure SubmitEnv where
  sessionFn : Nat → Except String Session
  elapsedAt : Nat → Nat
  runChunks : List (List Char)
  runError : Option String
  parse : List Char → Frame
  userMessageId : String
  aiMessageId : String
  errorMessageId : String

/-- Result of one `handleSubmit` call: the final React state, the error that
escaped the (async) function uncaught if any, and how many times the
session-creation endpoint was invoked. -/
structure SubmitResult where
  state : AppState
  uncaught : Option String
  sessionCalls : Nat

/-- The turn body after a session is available: append the human message and
the empty open ai message (resetting `currentAgentRef` and
`accumulatedTextRef`), run the SSE read loop over the dispatched payloads of
the run request, and on a run-request or mid-stream error append an
`Error: ...` ai message. -/
def runTurn (env : SubmitEnv) (query : String) (st2 : AppState) : AppState :=
  let st3 : AppState :=
    { st2 with
      messages := st2.messages ++
        [{ type := .human, content := query, id := env.userMessageId, agent := none }] }
  let st4 : AppState :=
    { st3 with
      currentAgent := ""
      accumulatedText := ""
      messages := st3.messages ++
        [{ type := .ai, content := "", id := env.aiMessageId, agent := some ("") }] }
  let frames := (sseDispatched env.runChunks).map env.parse
  let st5 := processFrames env.aiMessageId frames st4
  match env.runError with
  | none => st5
  | some e =>
    { st5 with
      messages := st5.messages ++
        [{ type := .ai, content := "Error: " ++ e, id := env.errorMessageId,
           agent := none }] }

/-- Embeds `handleSubmit`: early-return on blank queries; bootstrap the
session through `retryWithBackoff(createSession)` when the triple is not
established (this call is outside the try/catch, so its error escapes
uncaught); then run the turn body and finally clear `isLoading`. -/
def handleSubmit (env : SubmitEnv) (query : String) (st0 : AppState) : SubmitResult :=
  if jsTrim query == "" then { state := st0, uncaught := none, sessionCalls := 0 }
  else
    let st1 := { st0 with isLoading := true }
    let boot :=
      if sessionEstablished st1 then
        (Except.ok
          { userId := st1.userId.getD ("")
            sessionId := st1.sessionId.getD ("")
            appName := st1.appName.getD ("") }, 0)
      else retryWithBackoff env.sessionFn env.elapsedAt 10 120000
    match boot with
    | (.error e, n) => { state := st1, uncaught := some e, sessionCalls := n }
    | (.ok sess, n) =>
      let st2 : AppState :=
        if sessionEstablished st1 then st1
        else
          { st1 with
            userId := some sess.userId
            sessionId := some sess.sessionId
            appName := some sess.appName }
      { state := { runTurn env query st2 with isLoading := false }, uncaught := none,
        sessionCalls := n }

/-! ### Backend health poller -/

/-- Outcome of the `checkBackend` effect: how many health polls were issued
and the final values of the two readiness flags. -/
structure BackendPollResult where
  polls : Nat
  isBackendReady : Bool
  isCheckingBackend : Bool
deriving DecidableEq

/-- The `for (let i = 0; i < 60; i++)` polling loop, with the outcome of the
`i`-th liveness probe supplied as an oracle. -/
def checkBackendGo (health : Nat → Bool) : Nat → Nat → BackendPollResult
  | i, 0 => { polls := i, isBackendReady := false, isCheckingBackend := false }
  | i, fuel + 1 =>
    if health i then { polls := i + 1, isBackendReady := true, isCheckingBackend := false }
    else checkBackendGo health (i + 1) fuel

/-- Embeds the `checkBackend` effect run on mount. -/
def checkBackend (health : Nat → Bool) : BackendPollResult :=
  checkBackendGo health 0 60

/-- The four top-level screens of the `App` render tree. -/
inductive Screen where
  | backendLoading
  | backendUnavailable
  | welcome
  | chat
deriving DecidableEq

/-- Embeds the render branch selection of `App`. -/
def renderScreen (isCheckingBackend isBackendReady : Bool)
    (messages : List MessageWithAgent) : Screen :=
  if isCheckingBackend then .backendLoading
  else if !isBackendReady then .backendUnavailable
  else if messages.length == 0 then .welcome
  else .chat

/-! ## Lemmas about the SSE line framer -/

lemma extractLines_cons (c : Char) (rest : List Char) :
    extractLines (c :: rest) =
      if c = '\n' then ([] :: (extractLines rest).1, (extractLines rest).2)
      else
        match (extractLines rest).1 with
        | [] => ([], c :: (extractLines rest).2)
        | l :: ls => ((c :: l) :: ls, (extractLines rest).2) := rfl

/-- Feeding the buffer in two pieces extracts the first piece's complete
lines, then the lines of its remainder joined with the second piece. -/
lemma extractLines_append (a b : List Char) :
    extractLines (a ++ b) =
      ((extractLines a).1 ++ (extractLines ((extractLines a).2 ++ b)).1,
       (extractLines ((extractLines a).2 ++ b)).2) := by
  induction a with
  | nil => simp [extractLines]
  | cons c a ih =>
    by_cases hc : c = '\n'
    · simp [List.cons_append, extractLines_cons, hc, ih]
    · rw [List.cons_append, extractLines_cons, extractLines_cons, ih]
      simp only [if_neg hc]
      cases h : (extractLines a).1 with
      | nil =>
        simp only [h, List.nil_append, List.cons_append, extractLines_cons, if_neg hc]
      | cons l ls =>
        simp [h]

/-- A buffer without a newline yields no complete line. -/
lemma extractLines_no_newline (l : List Char) (h : '\n' ∉ l) :
    extractLines l = ([], l) := by
  induction l with
  | nil => rfl
  | cons c rest ih =>
    have hc : ¬c = '\n' := fun hh => h (hh ▸ List.mem_cons_self c rest)
    have hrest : '\n' ∉ rest := fun hh => h (List.mem_cons_of_mem c hh)
    rw [extractLines_cons, if_neg hc, ih hrest]

/-- The remainder left by line extraction never contains a newline. -/
lemma extractLines_rem_no_newline (l : List Char) : '\n' ∉ (extractLines l).2 := by
  induction l with
  | nil => simp [extractLines]
  | cons c rest ih =>
    rw [extractLines_cons]
    by_cases hc : c = '\n'
    · simpa [hc] using ih
    · cases h : (extractLines rest).1 with
      | nil =>
        simp only [h, if_neg hc, List.mem_cons]
        rintro (rfl | hm)
        · exact hc rfl
        · exact ih hm
      | cons a as => simpa [if_neg hc, h] using ih

/-- The read loop, started on a newline-free buffer, extracts exactly the
complete lines of the buffer followed by all remaining chunks; the final
remainder is discarded. -/
lemma sseFramerGo_eq (chunks : List (List Char)) :
    ∀ buf : List Char, '\n' ∉ buf →
      sseFramerGo buf chunks = (extractLines (buf ++ chunks.flatten)).1 := by
  induction chunks with
  | nil =>
    intro buf hbuf
    simp [sseFramerGo, extractLines_no_newline buf hbuf]
  | cons c cs ih =>
    intro buf _
    rw [sseFramerGo, ih (extractLines (buf ++ c)).2 (extractLines_rem_no_newline _),
      List.flatten_cons, ← List.append_assoc, extractLines_append (buf ++ c) cs.flatten]

/-- The lines the framer yields depend only on the concatenation of the
chunks. -/
lemma sseFramer_eq_flatten (chunks : List (List Char)) :
    sseFramer chunks = (extractLines chunks.flatten).1 := by
  simpa using sseFramerGo_eq chunks [] (by simp)

/-- C2: two chunk sequences with the same concatenated bytes make the SSE
read loop extract the same ordered complete lines and dispatch the same
ordered `data:` payloads, wherever the chunk boundaries fall; and a trailing
chunk not terminated by a newline at stream completion is dropped, never
dispatched. -/
theorem framer_chunk_boundary_invariance :
    (∀ c1 c2 : List (List Char), c1.flatten = c2.flatten →
        sseFramer c1 = sseFramer c2 ∧ sseDispatched c1 = sseDispatched c2) ∧
    (∀ (cs : List (List Char)) (t : List Char), '\n' ∉ t →
        sseFramer (cs ++ [t]) = sseFramer cs ∧
        sseDispatched (cs ++ [t]) = sseDispatched cs) := by
  constructor
  · intro c1 c2 hfl
    have h : sseFramer c1 = sseFramer c2 := by
      rw [sseFramer_eq_flatten, sseFramer_eq_flatten, hfl]
    exact ⟨h, by rw [sseDispatched, sseDispatched, h]⟩
  · intro cs t ht
    have hn : '\n' ∉ (extractLines cs.flatten).2 ++ t := by
      intro hm
      rcases List.mem_append.mp hm with hm | hm
      · exact extractLines_rem_no_newline _ hm
      · exact ht hm
    have h : sseFramer (cs ++ [t]) = sseFramer cs := by
      rw [sseFramer_eq_flatten, sseFramer_eq_flatten, List.flatten_append,
        List.flatten_cons, List.flatten_nil, List.append_nil,
        extractLines_append cs.flatten t, extractLines_no_newline _ hn]
      simp
    exact ⟨h, by rw [sseDispatched, sseDispatched, h]⟩

/-- Witness for C2 at concrete chunk splits of the same byte stream. -/
theorem framer_chunk_boundary_invariance_instance :
    sseFramer [("data: a\nda".toList), ("ta: b\ntail".toList)] =
        sseFramer [("data: a\ndata: b\n".toList), ("tail".toList)] ∧
    sseDispatched [("data: a\ndata: b\n".toList), ("tail".toList)] =
        sseDispatched [("data: a\ndata: b\n".toList)] := by
  refine ⟨(framer_chunk_boundary_invariance.1 _ _ (by decide)).1, ?_⟩
  exact (framer_chunk_boundary_invariance.2 [("data: a\ndata: b\n".toList)]
    ("tail".toList) (by decide)).2

/-! ## Lemmas about the event-to-message reducer -/

/-- C4: a dispatched frame whose payload fails JSON parsing leaves the whole
state (every message's content and the per-message event map) unchanged, and
a stream containing it processes exactly like the stream with it removed. -/
theorem malformed_frame_is_noop (m : String) (st : AppState) (fs1 fs2 : List Frame) :
    processSseEventData Frame.invalid m st = st ∧
    processFrames m (fs1 ++ Frame.invalid :: fs2) st = processFrames m (fs1 ++ fs2) st := by
  have h : ∀ s : AppState, processSseEventData Frame.invalid m s = s := by
    intro s
    simp [processSseEventData, extractDataFromSSE]
  refine ⟨h st, ?_⟩
  rw [processFrames, processFrames, List.foldl_append, List.foldl_append, List.foldl_cons]
  simp only [h]

lemma join_cons (s : String) (l : List String) :
    String.join (s :: l) = s ++ String.join l := by
  apply String.ext
  simp [String.join_eq, String.data_append]

lemma join_append (a b : List String) :
    String.join (a ++ b) = String.join a ++ String.join b := by
  apply String.ext
  simp [String.join_eq, String.data_append]

/-- Folding fragments extends the accumulator by the fragments, each followed
by one space. -/
lemma foldl_applyFragment_acc (m : String) (ts : List String) :
    ∀ st : AppState, (ts.foldl (applyFragment m) st).accumulatedText
      = st.accumulatedText ++ String.join (ts.map (· ++ " ")) := by
  induction ts with
  | nil =>
    intro st
    rw [List.foldl_nil, List.map_nil, show String.join [] = "" from rfl, String.append_empty]
  | cons t ts ih =>
    intro st
    rw [List.foldl_cons, ih, List.map_cons, join_cons]
    show (applyFragment m st t).accumulatedText ++ _ = _
    simp [applyFragment, String.append_assoc]

/-- One frame extends the accumulator by exactly its fragments. -/
lemma processSse_acc (f : Frame) (m : String) (st : AppState) :
    (processSseEventData f m st).accumulatedText =
      st.accumulatedText ++ String.join (((extractDataFromSSE f).1).map (· ++ " ")) := by
  simp only [processSseEventData]
  split
  · rw [foldl_applyFragment_acc]
    congr 1
    split <;> rfl
  · rename_i h
    have h0 : (extractDataFromSSE f).1 = [] := by
      cases hx : (extractDataFromSSE f).1 with
      | nil => rfl
      | cons a as => exact absurd (by simp [hx]) h
    rw [h0, List.map_nil, show String.join [] = "" from rfl, String.append_empty]
    split <;> rfl

/-- Invariant: every transcript message with the target id holds exactly the
trimmed accumulator. -/
def ContentInv (m : String) (st : AppState) : Prop :=
  ∀ msg ∈ st.messages, msg.id = m → msg.content = jsTrim st.accumulatedText

lemma ContentInv_of_eq (m : String) (s1 s2 : AppState) (hm : s2.messages = s1.messages)
    (ha : s2.accumulatedText = s1.accumulatedText) (h : ContentInv m s1) : ContentInv m s2 := by
  intro msg hmem hid
  rw [hm] at hmem
  rw [ha]
  exact h msg hmem hid

/-- Applying one fragment re-establishes the invariant unconditionally. -/
lemma applyFragment_inv (m t : String) (st : AppState) :
    ContentInv m (applyFragment m st t) := by
  intro msg hmem hid
  simp only [applyFragment, List.mem_map] at hmem
  obtain ⟨msg0, hmem0, rfl⟩ := hmem
  by_cases h0 : msg0.id == m
  · simp only [h0, if_true]
    rfl
  · simp only [h0, Bool.false_eq_true, if_false] at hid ⊢
    exact absurd (beq_iff_eq.mpr hid) (by simpa using h0)

lemma foldl_applyFragment_inv (m : String) (ts : List String) :
    ∀ st : AppState, ContentInv m st → ContentInv m (ts.foldl (applyFragment m) st) := by
  induction ts with
  | nil => exact fun st h => h
  | cons t ts ih => exact fun st _ => ih _ (applyFragment_inv m t st)

lemma processSse_inv (f : Frame) (m : String) (st : AppState) (h : ContentInv m st) :
    ContentInv m (processSseEventData f m st) := by
  simp only [processSseEventData]
  split
  · apply foldl_applyFragment_inv
    exact ContentInv_of_eq m st _ (by split <;> rfl) (by split <;> rfl) h
  · exact ContentInv_of_eq m st _ (by split <;> rfl) (by split <;> rfl) h

lemma processFrames_inv (m : String) (fs : List Frame) :
    ∀ st : AppState, ContentInv m st → ContentInv m (processFrames m fs st) := by
  induction fs with
  | nil => exact fun st h => h
  | cons f fs ih => exact fun st h => ih _ (processSse_inv f m st h)

lemma processFrames_acc (m : String) (fs : List Frame) :
    ∀ st : AppState, (processFrames m fs st).accumulatedText
      = st.accumulatedText ++ String.join ((allFragments fs).map (· ++ " ")) := by
  induction fs with
  | nil =>
    intro st
    rw [processFrames, List.foldl_nil, allFragments, List.map_nil, List.flatten_nil,
      List.map_nil, show String.join [] = "" from rfl, String.append_empty]
  | cons f fs ih =>
    intro st
    have hstep : processFrames m (f :: fs) st = processFrames m fs (processSseEventData f m st) :=
      rfl
    have hall : allFragments (f :: fs) = (extractDataFromSSE f).1 ++ allFragments fs := by
      simp [allFragments]
    rw [hstep, ih, processSse_acc, hall, List.map_append, join_append, String.append_assoc]

/-- C1: starting from a freshly opened turn (empty accumulator, empty open
message content), after processing any sequence of dispatched frames with
target id `m` — in particular after each valid frame with a non-empty text
fragment — every message with id `m` holds exactly the trim of the
concatenation of all fragments applied so far, each followed by a single
space, in arrival order. -/
theorem content_eq_trimmed_join_of_fragments (m : String) (fs : List Frame) (st : AppState)
    (hacc : st.accumulatedText = "")
    (hmsg : ∀ msg ∈ st.messages, msg.id = m → msg.content = "") :
    ∀ msg ∈ (processFrames m fs st).messages, msg.id = m →
      msg.content = jsTrim (String.join ((allFragments fs).map (· ++ " "))) := by
  have hinv : ContentInv m st := by
    intro msg hm hid
    rw [hmsg msg hm hid, hacc]
    rfl
  intro msg hm hid
  rw [processFrames_inv m fs st hinv msg hm hid, processFrames_acc, hacc, String.empty_append]

/-- Witness for C1: the spec's scenario with two product_agent fragments
yields content exactly the trimmed space-joined concatenation. -/
theorem content_eq_trimmed_join_of_fragments_instance :
    (⟨MsgType.ai, "Here are options", "m1", some ("product_agent")⟩ : MessageWithAgent).content
      = jsTrim (String.join ((allFragments
          [Frame.valid (some ⟨some [⟨some ("Here")⟩]⟩) (some ("product_agent")),
           Frame.valid (some ⟨some [⟨some ("are options")⟩]⟩) (some ("product_agent"))]).map
            (· ++ " "))) :=
  content_eq_trimmed_join_of_fragments ("m1")
    [Frame.valid (some ⟨some [⟨some ("Here")⟩]⟩) (some ("product_agent")),
     Frame.valid (some ⟨some [⟨some ("are options")⟩]⟩) (some ("product_agent"))]
    ⟨none, none, none, [⟨MsgType.ai, "", "m1", some ("")⟩], none, false, [], "", ""⟩
    rfl (by decide) _ (by decide) rfl

/-! ## Frame effects touch only the target message (C6) -/

lemma applyFragment_length (m t : String) (st : AppState) :
    (applyFragment m st t).messages.length = st.messages.length := by
  simp [applyFragment]

lemma applyFragment_getElem_ne (m t : String) (st : AppState) (i : Nat)
    (msg : MessageWithAgent) (h : st.messages[i]? = some msg) (hid : msg.id ≠ m) :
    (applyFragment m st t).messages[i]? = some msg := by
  simp only [applyFragment, List.getElem?_map, h, Option.map_some']
  rw [if_neg (by simpa using hid)]

lemma foldl_applyFragment_getElem_ne (m : String) (ts : List String) :
    ∀ (st : AppState) (i : Nat) (msg : MessageWithAgent),
      st.messages[i]? = some msg → msg.id ≠ m →
      (ts.foldl (applyFragment m) st).messages[i]? = some msg := by
  induction ts with
  | nil => exact fun _ _ _ h _ => h
  | cons t ts ih =>
    intro st i msg h hid
    exact ih _ i msg (applyFragment_getElem_ne m t st i msg h hid) hid

lemma foldl_applyFragment_length (m : String) (ts : List String) :
    ∀ st : AppState, (ts.foldl (applyFragment m) st).messages.length = st.messages.length := by
  induction ts with
  | nil => exact fun _ => rfl
  | cons t ts ih =>
    intro st
    rw [List.foldl_cons, ih, applyFragment_length]

lemma processSse_messages_length (f : Frame) (m : String) (st : AppState) :
    (processSseEventData f m st).messages.length = st.messages.length := by
  simp only [processSseEventData]
  split
  · rw [foldl_applyFragment_length]
    split <;> rfl
  · split <;> rfl

lemma processSse_getElem_ne (f : Frame) (m : String) (st : AppState) (i : Nat)
    (msg : MessageWithAgent) (h : st.messages[i]? = some msg) (hid : msg.id ≠ m) :
    (processSseEventData f m st).messages[i]? = some msg := by
  simp only [processSseEventData]
  split
  · apply foldl_applyFragment_getElem_ne m _ _ i msg _ hid
    split <;> exact h
  · split <;> exact h

lemma processFrames_getElem_ne (m : String) (fs : List Frame) :
    ∀ (st : AppState) (i : Nat) (msg : MessageWithAgent),
      st.messages[i]? = some msg → msg.id ≠ m →
      (processFrames m fs st).messages[i]? = some msg := by
  induction fs with
  | nil => exact fun _ _ _ h _ => h
  | cons f fs ih =>
    intro st i msg h hid
    exact ih _ i msg (processSse_getElem_ne f m st i msg h hid) hid

lemma processFrames_length (m : String) (fs : List Frame) :
    ∀ st : AppState, (processFrames m fs st).messages.length = st.messages.length := by
  induction fs with
  | nil => exact fun _ => rfl
  | cons f fs ih =>
    intro st
    have hstep : processFrames m (f :: fs) st = processFrames m fs (processSseEventData f m st) :=
      rfl
    rw [hstep, ih, processSse_messages_length]

/-- C6: a dispatched frame processed with target message id m preserves the
transcript length and leaves every message whose id is not m completely
unchanged (same type, id, content and agent); the reducer writes only the
open ai message m. -/
theorem reducer_writes_only_target_message (f : Frame) (m : String) (st : AppState) :
    (processSseEventData f m st).messages.length = st.messages.length ∧
    ∀ (i : Nat) (msg : MessageWithAgent), st.messages[i]? = some msg → msg.id ≠ m →
      (processSseEventData f m st).messages[i]? = some msg :=
  ⟨processSse_messages_length f m st,
   fun i msg h hid => processSse_getElem_ne f m st i msg h hid⟩

/-- Witness for C6: a cart_agent fragment frame targeting m2 leaves the
human message h1 untouched. -/
theorem reducer_writes_only_target_message_instance :
    (processSseEventData
        (Frame.valid (some ⟨some [⟨some ("Hi")⟩]⟩) (some ("cart_agent"))) "m2"
        ⟨none, none, none,
          [⟨MsgType.human, "hello", "h1", none⟩, ⟨MsgType.ai, "", "m2", some ("")⟩],
          none, true, [], "", ""⟩).messages[0]?
      = some ⟨MsgType.human, "hello", "h1", none⟩ :=
  (reducer_writes_only_target_message
    (Frame.valid (some ⟨some [⟨some ("Hi")⟩]⟩) (some ("cart_agent"))) "m2"
    ⟨none, none, none,
      [⟨MsgType.human, "hello", "h1", none⟩, ⟨MsgType.ai, "", "m2", some ("")⟩],
      none, true, [], "", ""⟩).2 0 _ rfl (by decide)

/-! ## Agent attribution never degrades (C10) -/

lemma applyFragment_currentAgent (m t : String) (st : AppState) :
    (applyFragment m st t).currentAgent = st.currentAgent := rfl

lemma foldl_applyFragment_currentAgent (m : String) (ts : List String) :
    ∀ st : AppState, (ts.foldl (applyFragment m) st).currentAgent = st.currentAgent := by
  induction ts with
  | nil => exact fun _ => rfl
  | cons t ts ih =>
    intro st
    rw [List.foldl_cons, ih, applyFragment_currentAgent]

/-- The tracked current agent is either untouched or overwritten by the
frame's author; the latter only when that author is non-empty. -/
lemma processSse_currentAgent (f : Frame) (m : String) (st : AppState) :
    (processSseEventData f m st).currentAgent = st.currentAgent ∨
      ((processSseEventData f m st).currentAgent = (extractDataFromSSE f).2 ∧
        ¬(extractDataFromSSE f).2 = "") := by
  simp only [processSseEventData]
  split
  · rw [foldl_applyFragment_currentAgent]
    split
    · rename_i hc
      refine Or.inr ⟨rfl, ?_⟩
      simp only [Bool.and_eq_true, Bool.not_eq_true', beq_eq_false_iff_ne, ne_eq] at hc
      exact hc.1
    · exact Or.inl rfl
  · split
    · rename_i hc
      refine Or.inr ⟨rfl, ?_⟩
      simp only [Bool.and_eq_true, Bool.not_eq_true', beq_eq_false_iff_ne, ne_eq] at hc
      exact hc.1
    · exact Or.inl rfl

lemma applyFragment_agent_preserve (m t : String) (st : AppState) (i : Nat)
    (msg : MessageWithAgent) (s : String) (h : st.messages[i]? = some msg)
    (ha : msg.agent = some s) (hs : ¬s = "") :
    ∃ msg' s', (applyFragment m st t).messages[i]? = some msg' ∧
      msg'.agent = some s' ∧ ¬s' = "" := by
  simp only [applyFragment, List.getElem?_map, h, Option.map_some']
  by_cases h0 : (msg.id == m) = true
  · rw [if_pos h0]
    by_cases hca : (st.currentAgent == "") = true
    · refine ⟨_, s, rfl, ?_, hs⟩
      show (if (st.currentAgent == "") = true then msg.agent else some st.currentAgent) = some s
      rw [if_pos hca]
      exact ha
    · refine ⟨_, st.currentAgent, rfl, ?_, by simpa using hca⟩
      show (if (st.currentAgent == "") = true then msg.agent else some st.currentAgent)
        = some st.currentAgent
      rw [if_neg hca]
  · rw [if_neg h0]
    exact ⟨msg, s, rfl, ha, hs⟩

lemma foldl_applyFragment_agent_preserve (m : String) (ts : List String) :
    ∀ (st : AppState) (i : Nat) (msg : MessageWithAgent) (s : String),
      st.messages[i]? = some msg → msg.agent = some s → ¬s = "" →
      ∃ msg' s', (ts.foldl (applyFragment m) st).messages[i]? = some msg' ∧
        msg'.agent = some s' ∧ ¬s' = "" := by
  induction ts with
  | nil => exact fun _ _ msg s h ha hs => ⟨msg, s, h, ha, hs⟩
  | cons t ts ih =>
    intro st i msg s h ha hs
    obtain ⟨msg1, s1, h1, ha1, hs1⟩ := applyFragment_agent_preserve m t st i msg s h ha hs
    exact ih _ i msg1 s1 h1 ha1 hs1

lemma processSse_agent_preserve (f : Frame) (m : String) (st : AppState) (i : Nat)
    (msg : MessageWithAgent) (s : String) (h : st.messages[i]? = some msg)
    (ha : msg.agent = some s) (hs : ¬s = "") :
    ∃ msg' s', (processSseEventData f m st).messages[i]? = some msg' ∧
      msg'.agent = some s' ∧ ¬s' = "" := by
  simp only [processSseEventData]
  split
  · apply foldl_applyFragment_agent_preserve m _ _ i msg s _ ha hs
    split <;> exact h
  · refine ⟨msg, s, ?_, ha, hs⟩
    split <;> exact h

/-- Folding a non-empty fragment list gives the target message the tracked
current agent when non-empty, otherwise keeps its existing agent value. -/
lemma foldl_applyFragment_target_agent (m : String) :
    ∀ (ts : List String), ts ≠ [] → ∀ (st : AppState) (i : Nat) (msg : MessageWithAgent),
      st.messages[i]? = some msg → msg.id = m →
      ∃ msg', (ts.foldl (applyFragment m) st).messages[i]? = some msg' ∧
        msg'.agent = (if st.currentAgent == "" then msg.agent else some st.currentAgent) ∧
        msg'.id = m := by
  intro ts
  induction ts with
  | nil => exact fun h => absurd rfl h
  | cons t ts ih =>
    intro _ st i msg h hid
    have hstep : (applyFragment m st t).messages[i]? =
        some { msg with
          content := jsTrim (st.accumulatedText ++ t ++ " ")
          agent := if st.currentAgent == "" then msg.agent else some st.currentAgent } := by
      simp only [applyFragment, List.getElem?_map, h, Option.map_some']
      rw [if_pos (by simpa using hid)]
    cases ts with
    | nil =>
      rw [List.foldl_cons, List.foldl_nil]
      exact ⟨_, hstep, rfl, hid⟩
    | cons t2 ts2 =>
      obtain ⟨msg', hm', ha', hid'⟩ := ih (by simp) (applyFragment m st t) i _ hstep hid
      refine ⟨msg', hm', ?_, hid'⟩
      rw [ha', applyFragment_currentAgent]
      by_cases hca : (st.currentAgent == "") = true <;> simp [hca]

/-- A fragment frame with empty author leaves the tracked agent unchanged and
updates the target message's agent to the tracked agent when non-empty,
otherwise keeps the message's existing agent. -/
lemma processSse_noauthor_target_agent (f : Frame) (m : String) (st : AppState)
    (hagent : (extractDataFromSSE f).2 = "") (hts : (extractDataFromSSE f).1 ≠ []) :
    (processSseEventData f m st).currentAgent = st.currentAgent ∧
    ∀ (i : Nat) (msg : MessageWithAgent), st.messages[i]? = some msg → msg.id = m →
      ∃ msg', (processSseEventData f m st).messages[i]? = some msg' ∧
        msg'.agent = (if st.currentAgent == "" then msg.agent else some st.currentAgent) := by
  simp only [processSseEventData, hagent, beq_self_eq_true, Bool.not_true, Bool.false_and,
    Bool.false_eq_true, if_false]
  rw [if_pos (List.length_pos.mpr hts)]
  constructor
  · rw [foldl_applyFragment_currentAgent]
  · intro i msg h hid
    obtain ⟨msg', hm', ha', _⟩ :=
      foldl_applyFragment_target_agent m (extractDataFromSSE f).1 hts ({ st with messageEvents := mapSet st.messageEvents m (mapGet st.messageEvents m ++ [{ title := getEventTitle (""), data := { type := "text", content := joinSpace (extractDataFromSSE f).1 } }]) }) i msg (by exact h) hid
    exact ⟨msg', hm', ha'⟩

/-- C10: the tracked current agent is only ever overwritten by a non-empty
author value and never transitions back to empty; a message's non-empty agent
never becomes empty; and a fragment frame carrying no author leaves the
tracked agent unchanged and gives the target message either the last
non-empty tracked agent or, when none is tracked, its existing agent value. -/
theorem agent_attribution_monotone (f : Frame) (m : String) (st : AppState) :
    ((processSseEventData f m st).currentAgent = st.currentAgent ∨
      ((processSseEventData f m st).currentAgent = (extractDataFromSSE f).2 ∧
        ¬(extractDataFromSSE f).2 = "")) ∧
    (¬st.currentAgent = "" → ¬(processSseEventData f m st).currentAgent = "") ∧
    (∀ (i : Nat) (msg : MessageWithAgent) (s : String),
      st.messages[i]? = some msg → msg.agent = some s → ¬s = "" →
      ∃ msg' s', (processSseEventData f m st).messages[i]? = some msg' ∧
        msg'.agent = some s' ∧ ¬s' = "") ∧
    ((extractDataFromSSE f).2 = "" → (extractDataFromSSE f).1 ≠ [] →
      (processSseEventData f m st).currentAgent = st.currentAgent ∧
      ∀ (i : Nat) (msg : MessageWithAgent), st.messages[i]? = some msg → msg.id = m →
        ∃ msg', (processSseEventData f m st).messages[i]? = some msg' ∧
          msg'.agent = (if st.currentAgent == "" then msg.agent else some st.currentAgent)) := by
  refine ⟨processSse_currentAgent f m st, ?_,
    fun i msg s h ha hs => processSse_agent_preserve f m st i msg s h ha hs,
    fun hag hts => processSse_noauthor_target_agent f m st hag hts⟩
  intro hne
  rcases processSse_currentAgent f m st with h | ⟨h, hne2⟩
  · rw [h]; exact hne
  · rw [h]; exact hne2

/-- Witness for C10: an author-less fragment frame keeps the tracked agent
product_agent. -/
theorem agent_attribution_monotone_instance :
    (processSseEventData (Frame.valid (some ⟨some [⟨some ("more")⟩]⟩) none) "m1"
      ⟨none, none, none, [⟨MsgType.ai, "x", "m1", some ("product_agent")⟩], none, true, [],
        "product_agent", "x "⟩).currentAgent = "product_agent" := by
  obtain ⟨h1, h2, h3, h4⟩ := agent_attribution_monotone
    (Frame.valid (some ⟨some [⟨some ("more")⟩]⟩) none) "m1"
    ⟨none, none, none, [⟨MsgType.ai, "x", "m1", some ("product_agent")⟩], none, true, [],
      "product_agent", "x "⟩
  exact (h4 rfl (by decide)).1

/-! ## Backend health poller (C8) -/

lemma checkBackendGo_polls_le (health : Nat → Bool) :
    ∀ (fuel i : Nat), (checkBackendGo health i fuel).polls ≤ i + fuel := by
  intro fuel
  induction fuel with
  | zero =>
    intro i
    simp [checkBackendGo]
  | succ fuel ih =>
    intro i
    rw [checkBackendGo]
    split
    · show i + 1 ≤ i + (fuel + 1)
      omega
    · have := ih (i + 1)
      omega

lemma checkBackendGo_all_fail (health : Nat → Bool) :
    ∀ (fuel i : Nat), (∀ j, i ≤ j → j < i + fuel → health j = false) →
      checkBackendGo health i fuel =
        { polls := i + fuel, isBackendReady := false, isCheckingBackend := false } := by
  intro fuel
  induction fuel with
  | zero =>
    intro i _
    simp [checkBackendGo]
  | succ fuel ih =>
    intro i h
    rw [checkBackendGo]
    have hi : health i = false := h i le_rfl (by omega)
    rw [hi, if_neg (by simp)]
    rw [ih (i + 1) (fun j hj1 hj2 => h j (by omega) (by omega))]
    have e : i + 1 + fuel = i + (fuel + 1) := by omega
    rw [e]

lemma checkBackendGo_first_success (health : Nat → Bool) :
    ∀ (fuel i k : Nat), i ≤ k → k < i + fuel → health k = true →
      (∀ j, i ≤ j → j < k → health j = false) →
      checkBackendGo health i fuel =
        { polls := k + 1, isBackendReady := true, isCheckingBackend := false } := by
  intro fuel
  induction fuel with
  | zero =>
    intro i k h1 h2 _ _
    omega
  | succ fuel ih =>
    intro i k hik hk hkt hprev
    rw [checkBackendGo]
    by_cases hik0 : i = k
    · subst hik0
      rw [hkt, if_pos rfl]
    · have hi : health i = false := hprev i le_rfl (by omega)
      rw [hi, if_neg (by simp)]
      exact ih (i + 1) k (by omega) (by omega) hkt (fun j hj1 hj2 => hprev j (by omega) hj2)

/-- C8: the health wait polls at most 60 times; with a first successful poll
at index k below 60 it ends ready after exactly k+1 polls; if all 60 polls
fail it never becomes ready and the UI lands on the distinct
backend-unavailable screen. -/
theorem backend_poll_bounded_first_success (health : Nat → Bool) :
    (checkBackend health).polls ≤ 60 ∧
    ((∀ i, i < 60 → health i = false) →
      checkBackend health =
        { polls := 60, isBackendReady := false, isCheckingBackend := false } ∧
      ∀ msgs : List MessageWithAgent, renderScreen false false msgs = Screen.backendUnavailable) ∧
    (∀ k, k < 60 → health k = true → (∀ j, j < k → health j = false) →
      checkBackend health =
        { polls := k + 1, isBackendReady := true, isCheckingBackend := false }) := by
  refine ⟨by simpa using checkBackendGo_polls_le health 60 0, ?_, ?_⟩
  · intro hall
    refine ⟨?_, fun msgs => rfl⟩
    simpa using checkBackendGo_all_fail health 60 0 (fun j _ hj => hall j (by omega))
  · intro k hk hkt hprev
    exact checkBackendGo_first_success health 60 0 k (by omega) (by omega) hkt
      (fun j _ hj => hprev j hj)

/-- Witness for C8: all polls failing gives the unavailable state after 60
polls; a first success at poll index 3 gives the ready state after 4 polls. -/
theorem backend_poll_bounded_first_success_instance :
    checkBackend (fun _ => false) =
      { polls := 60, isBackendReady := false, isCheckingBackend := false } ∧
    renderScreen false false [] = Screen.backendUnavailable ∧
    checkBackend (fun i => i == 3) =
      { polls := 4, isBackendReady := true, isCheckingBackend := false } := by
  refine ⟨?_, ?_, ?_⟩
  · exact ((backend_poll_bounded_first_success (fun _ => false)).2.1 (fun i _ => rfl)).1
  · exact ((backend_poll_bounded_first_success (fun _ => false)).2.1 (fun i _ => rfl)).2 []
  · exact (backend_poll_bounded_first_success (fun i => i == 3)).2.2 3 (by omega) (by decide)
      (by decide)

/-! ## Retry with backoff (C3) -/

/-- When every attempt fails within the wall-clock bound, the loop makes
exactly `fuel` calls and rethrows the LAST attempt's error. -/
lemma retryGo_all_fail (fn : Nat → Except String Session) (elapsedAt : Nat → Nat)
    (maxDuration : Nat) (errs : Nat → String)
    (hfn : ∀ i, fn i = .error (errs i)) (hel : ∀ i, elapsedAt i ≤ maxDuration) :
    ∀ (fuel attempt : Nat) (le : Option String), 0 < fuel →
      retryGo fn elapsedAt maxDuration fuel attempt le
        = (.error (errs (attempt + fuel - 1)), attempt + fuel) := by
  intro fuel
  induction fuel with
  | zero =>
    intro _ _ h
    exact absurd h (by simp)
  | succ fuel ih =>
    intro attempt le _
    rw [retryGo, if_neg (Nat.not_lt.mpr (hel attempt)), hfn attempt]
    cases fuel with
    | zero =>
      show retryGo fn elapsedAt maxDuration 0 (attempt + 1) (some (errs attempt)) = _
      rw [retryGo]
      simp
    | succ fuel2 =>
      show retryGo fn elapsedAt maxDuration (fuel2 + 1) (attempt + 1) (some (errs attempt)) = _
      rw [ih (attempt + 1) (some (errs attempt)) (Nat.succ_pos _)]
      have e1 : attempt + 1 + (fuel2 + 1) = attempt + (fuel2 + 1 + 1) := by omega
      first
      | rfl
      | rw [e1]

/-- Hitting the wall-clock ceiling throws the distinct retry-timeout error
before calling the attempt function. -/
lemma retryGo_timeout (fn : Nat → Except String Session) (elapsedAt : Nat → Nat)
    (maxDuration fuel attempt : Nat) (le : Option String)
    (h : maxDuration < elapsedAt attempt) (hf : 0 < fuel) :
    retryGo fn elapsedAt maxDuration fuel attempt le
      = (.error ("Retry timeout after " ++ toString maxDuration ++ "ms"), attempt) := by
  cases fuel with
  | zero => exact absurd hf (by simp)
  | succ fuel => rw [retryGo, if_pos h]

/-- A successful first attempt within the bound returns it after one call. -/
lemma retryGo_first_ok (fn : Nat → Except String Session) (elapsedAt : Nat → Nat)
    (maxDuration fuel attempt : Nat) (le : Option String) (s : Session)
    (hok : fn attempt = .ok s) (hel : ¬maxDuration < elapsedAt attempt) (hf : 0 < fuel) :
    retryGo fn elapsedAt maxDuration fuel attempt le = (.ok s, attempt + 1) := by
  cases fuel with
  | zero => exact absurd hf (by simp)
  | succ fuel => rw [retryGo, if_neg hel, hok]

/-! ## The shape of the transcript after a turn (C5, C7, C9) -/

lemma applyFragment_id_type (m t : String) (st : AppState) (i : Nat)
    (msg : MessageWithAgent) (h : st.messages[i]? = some msg) :
    ∃ msg', (applyFragment m st t).messages[i]? = some msg' ∧
      msg'.id = msg.id ∧ msg'.type = msg.type := by
  simp only [applyFragment, List.getElem?_map, h, Option.map_some']
  by_cases h0 : (msg.id == m) = true
  · rw [if_pos h0]
    exact ⟨_, rfl, rfl, rfl⟩
  · rw [if_neg h0]
    exact ⟨msg, rfl, rfl, rfl⟩

lemma foldl_applyFragment_id_type (m : String) (ts : List String) :
    ∀ (st : AppState) (i : Nat) (msg : MessageWithAgent), st.messages[i]? = some msg →
      ∃ msg', (ts.foldl (applyFragment m) st).messages[i]? = some msg' ∧
        msg'.id = msg.id ∧ msg'.type = msg.type := by
  induction ts with
  | nil => exact fun _ _ msg h => ⟨msg, h, rfl, rfl⟩
  | cons t ts ih =>
    intro st i msg h
    obtain ⟨msg1, h1, hid1, hty1⟩ := applyFragment_id_type m t st i msg h
    obtain ⟨msg2, h2, hid2, hty2⟩ := ih _ i msg1 h1
    exact ⟨msg2, h2, hid2.trans hid1, hty2.trans hty1⟩

lemma processSse_id_type (f : Frame) (m : String) (st : AppState) (i : Nat)
    (msg : MessageWithAgent) (h : st.messages[i]? = some msg) :
    ∃ msg', (processSseEventData f m st).messages[i]? = some msg' ∧
      msg'.id = msg.id ∧ msg'.type = msg.type := by
  simp only [processSseEventData]
  split
  · apply foldl_applyFragment_id_type m _ _ i msg
    split <;> exact h
  · refine ⟨msg, ?_, rfl, rfl⟩
    split <;> exact h

lemma processFrames_id_type (m : String) (fs : List Frame) :
    ∀ (st : AppState) (i : Nat) (msg : MessageWithAgent), st.messages[i]? = some msg →
      ∃ msg', (processFrames m fs st).messages[i]? = some msg' ∧
        msg'.id = msg.id ∧ msg'.type = msg.type := by
  induction fs with
  | nil => exact fun _ _ msg h => ⟨msg, h, rfl, rfl⟩
  | cons f fs ih =>
    intro st i msg h
    obtain ⟨msg1, h1, hid1, hty1⟩ := processSse_id_type f m st i msg h
    obtain ⟨msg2, h2, hid2, hty2⟩ := ih _ i msg1 h1
    exact ⟨msg2, h2, hid2.trans hid1, hty2.trans hty1⟩

lemma foldl_applyFragment_session_fields (m : String) (ts : List String) :
    ∀ st : AppState, (ts.foldl (applyFragment m) st).userId = st.userId ∧
      (ts.foldl (applyFragment m) st).sessionId = st.sessionId ∧
      (ts.foldl (applyFragment m) st).appName = st.appName := by
  induction ts with
  | nil => exact fun _ => ⟨rfl, rfl, rfl⟩
  | cons t ts ih =>
    intro st
    rw [List.foldl_cons]
    exact ih (applyFragment m st t)

lemma processSse_session_fields (f : Frame) (m : String) (st : AppState) :
    (processSseEventData f m st).userId = st.userId ∧
    (processSseEventData f m st).sessionId = st.sessionId ∧
    (processSseEventData f m st).appName = st.appName := by
  simp only [processSseEventData]
  split
  · refine ⟨?_, ?_, ?_⟩
    · rw [(foldl_applyFragment_session_fields m _ _).1]
      split <;> rfl
    · rw [(foldl_applyFragment_session_fields m _ _).2.1]
      split <;> rfl
    · rw [(foldl_applyFragment_session_fields m _ _).2.2]
      split <;> rfl
  · refine ⟨?_, ?_, ?_⟩ <;> split <;> rfl

lemma processFrames_session_fields (m : String) (fs : List Frame) :
    ∀ st : AppState, (processFrames m fs st).userId = st.userId ∧
      (processFrames m fs st).sessionId = st.sessionId ∧
      (processFrames m fs st).appName = st.appName := by
  induction fs with
  | nil => exact fun _ => ⟨rfl, rfl, rfl⟩
  | cons f fs ih =>
    intro st
    have hstep : processFrames m (f :: fs) st = processFrames m fs (processSseEventData f m st) :=
      rfl
    rw [hstep]
    obtain ⟨h1, h2, h3⟩ := ih (processSseEventData f m st)
    obtain ⟨g1, g2, g3⟩ := processSse_session_fields f m st
    exact ⟨h1.trans g1, h2.trans g2, h3.trans g3⟩

/-- Processing frames on a freshly opened turn transcript keeps the prior
messages and the human message intact and rewrites only the open ai message,
whose content becomes the trimmed space-joined concatenation of all
fragments. -/
lemma processFrames_turn_shape (m : String) (fs : List Frame) (base : List MessageWithAgent)
    (human ai0 : MessageWithAgent) (st4 : AppState)
    (hmsgs : st4.messages = base ++ [human, ai0])
    (hacc : st4.accumulatedText = "")
    (hfresh : ∀ msg ∈ base, msg.id ≠ m)
    (hhid : human.id ≠ m) (haid : ai0.id = m) (hai0c : ai0.content = "") :
    ∃ aiMsg : MessageWithAgent,
      (processFrames m fs st4).messages = base ++ [human, aiMsg] ∧
      aiMsg.id = m ∧ aiMsg.type = ai0.type ∧
      aiMsg.content = jsTrim (String.join ((allFragments fs).map (· ++ " "))) := by
  have hat0 : st4.messages[base.length + 1]? = some ai0 := by
    rw [hmsgs, List.getElem?_append_right (by omega : base.length ≤ base.length + 1)]
    have e : base.length + 1 - base.length = 1 := by omega
    rw [e]
    rfl
  obtain ⟨aiMsg, hAt, hid, hty⟩ := processFrames_id_type m fs st4 (base.length + 1) ai0 hat0
  have hinv : ContentInv m st4 := by
    intro msg hm hidm
    rw [hmsgs] at hm
    rcases List.mem_append.mp hm with hm | hm
    · exact absurd hidm (hfresh msg hm)
    · rcases List.mem_cons.mp hm with rfl | hm
      · exact absurd hidm hhid
      · rcases List.mem_cons.mp hm with rfl | hm
        · rw [hai0c, hacc]
          rfl
        · exact absurd hm (List.not_mem_nil msg)
  have hcontent : aiMsg.content = jsTrim (String.join ((allFragments fs).map (· ++ " "))) := by
    have h1 := processFrames_inv m fs st4 hinv aiMsg (List.getElem?_mem hAt) (hid.trans haid)
    rw [h1, processFrames_acc, hacc, String.empty_append]
  refine ⟨aiMsg, ?_, hid.trans haid, hty, hcontent⟩
  apply List.ext_getElem?_iff.mpr
  intro i
  rcases Nat.lt_trichotomy i base.length with hi | hieq | hi
  · have hbase : base[i]? = some base[i] := List.getElem?_eq_getElem hi
    have h4 : st4.messages[i]? = some base[i] := by
      rw [hmsgs, List.getElem?_append_left hi, hbase]
    rw [processFrames_getElem_ne m fs st4 i _ h4 (hfresh _ (List.getElem_mem hi)),
      List.getElem?_append_left hi, hbase]
  · subst hieq
    have h4 : st4.messages[base.length]? = some human := by
      rw [hmsgs, List.getElem?_append_right (le_refl _), Nat.sub_self]
      rfl
    rw [processFrames_getElem_ne m fs st4 base.length _ h4 hhid,
      List.getElem?_append_right (le_refl _), Nat.sub_self]
    rfl
  · by_cases hi1 : i = base.length + 1
    · subst hi1
      rw [hAt, List.getElem?_append_right (by omega : base.length ≤ base.length + 1)]
      have e : base.length + 1 - base.length = 1 := by omega
      rw [e]
      rfl
    · have hlen : (processFrames m fs st4).messages.length = base.length + 2 := by
        rw [processFrames_length, hmsgs]
        simp
      rw [List.getElem?_eq_none (by omega : (processFrames m fs st4).messages.length ≤ i),
        List.getElem?_eq_none (by simp; omega)]

/-- With the session established and a non-blank query, `handleSubmit` skips
the bootstrap and runs the turn with zero session-creation calls. -/
lemma handleSubmit_established_eq (env : SubmitEnv) (q : String) (st : AppState)
    (hq : (jsTrim q == "") = false) (ht : sessionEstablished st = true) :
    handleSubmit env q st =
      { state := { runTurn env q { st with isLoading := true } with isLoading := false },
        uncaught := none, sessionCalls := 0 } := by
  have ht1 : sessionEstablished { st with isLoading := true } = true := ht
  simp only [handleSubmit, hq, Bool.false_eq_true, if_false, ht1, if_true]

/-- With the session not established, a failing bootstrap escapes `handleSubmit`
uncaught, leaving the transcript untouched and the loading flag set. -/
lemma handleSubmit_boot_fail_eq (env : SubmitEnv) (q : String) (st : AppState)
    (hq : (jsTrim q == "") = false) (ht : sessionEstablished st = false)
    (e : String) (n : Nat)
    (hb : retryWithBackoff env.sessionFn env.elapsedAt 10 120000 = (.error e, n)) :
    handleSubmit env q st =
      { state := { st with isLoading := true }, uncaught := some e, sessionCalls := n } := by
  have ht1 : sessionEstablished { st with isLoading := true } = false := ht
  simp only [handleSubmit, hq, Bool.false_eq_true, if_false, ht1, hb]

/-- With the session not established, a successful bootstrap publishes the
returned triple and runs the turn. -/
lemma handleSubmit_boot_ok_eq (env : SubmitEnv) (q : String) (st : AppState)
    (hq : (jsTrim q == "") = false) (ht : sessionEstablished st = false)
    (s : Session) (n : Nat)
    (hb : retryWithBackoff env.sessionFn env.elapsedAt 10 120000 = (.ok s, n)) :
    handleSubmit env q st =
      { state := { runTurn env q ({ st with isLoading := true, userId := some s.userId, sessionId := some s.sessionId, appName := some s.appName }) with isLoading := false },
        uncaught := none, sessionCalls := n } := by
  have ht1 : sessionEstablished { st with isLoading := true } = false := ht
  simp only [handleSubmit, hq, Bool.false_eq_true, if_false, ht1, hb]

/-- The turn body never touches the session triple. -/
lemma runTurn_session_fields (env : SubmitEnv) (q : String) (st2 : AppState) :
    (runTurn env q st2).userId = st2.userId ∧
    (runTurn env q st2).sessionId = st2.sessionId ∧
    (runTurn env q st2).appName = st2.appName := by
  simp only [runTurn]
  refine ⟨?_, ?_, ?_⟩ <;> split <;>
    first
    | exact (processFrames_session_fields _ _ _).1
    | exact (processFrames_session_fields _ _ _).2.1
    | exact (processFrames_session_fields _ _ _).2.2

lemma sessionEstablished_congr (s1 s2 : AppState) (h1 : s1.userId = s2.userId)
    (h2 : s1.sessionId = s2.sessionId) (h3 : s1.appName = s2.appName) :
    sessionEstablished s1 = sessionEstablished s2 := by
  simp [sessionEstablished, h1, h2, h3]

/-- A submission in an established state makes no session call and keeps the
triple. -/
lemma handleSubmit_established_triple (env : SubmitEnv) (q : String) (st : AppState)
    (ht : sessionEstablished st = true) :
    (handleSubmit env q st).sessionCalls = 0 ∧
    (handleSubmit env q st).state.userId = st.userId ∧
    (handleSubmit env q st).state.sessionId = st.sessionId ∧
    (handleSubmit env q st).state.appName = st.appName := by
  by_cases hq : (jsTrim q == "") = true
  · simp [handleSubmit, hq]
  · rw [handleSubmit_established_eq env q st (by simpa using hq) ht]
    obtain ⟨h1, h2, h3⟩ := runTurn_session_fields env q { st with isLoading := true }
    exact ⟨rfl, h1, h2, h3⟩

/-- C5: a submission made with the session triple already established never
invokes the session-creation endpoint and leaves the triple unchanged, so any
following submission still makes no session call; and when the triple is not
established, a first successful attempt invokes the endpoint exactly once and
publishes the returned triple. -/
theorem established_session_not_reinvoked (env env2 : SubmitEnv) (q q2 : String)
    (st : AppState) (s : Session) :
    (sessionEstablished st = true →
      (handleSubmit env q st).sessionCalls = 0 ∧
      (handleSubmit env q st).state.userId = st.userId ∧
      (handleSubmit env q st).state.sessionId = st.sessionId ∧
      (handleSubmit env q st).state.appName = st.appName ∧
      (handleSubmit env2 q2 (handleSubmit env q st).state).sessionCalls = 0) ∧
    (sessionEstablished st = false → (jsTrim q == "") = false →
      env.sessionFn 0 = Except.ok s → env.elapsedAt 0 ≤ 120000 →
      (handleSubmit env q st).sessionCalls = 1 ∧
      (handleSubmit env q st).state.userId = some s.userId ∧
      (handleSubmit env q st).state.sessionId = some s.sessionId ∧
      (handleSubmit env q st).state.appName = some s.appName) := by
  constructor
  · intro ht
    obtain ⟨h0, h1, h2, h3⟩ := handleSubmit_established_triple env q st ht
    refine ⟨h0, h1, h2, h3, ?_⟩
    have ht2 : sessionEstablished (handleSubmit env q st).state = true := by
      rw [sessionEstablished_congr _ st h1 h2 h3]
      exact ht
    exact (handleSubmit_established_triple env2 q2 _ ht2).1
  · intro ht hq hok hel
    have hb : retryWithBackoff env.sessionFn env.elapsedAt 10 120000 = (.ok s, 1) := by
      rw [retryWithBackoff]
      exact retryGo_first_ok env.sessionFn env.elapsedAt 120000 10 0 none s hok
        (Nat.not_lt.mpr hel) (by omega)
    rw [handleSubmit_boot_ok_eq env q st hq ht s 1 hb]
    obtain ⟨h1, h2, h3⟩ := runTurn_session_fields env q ({ st with isLoading := true, userId := some s.userId, sessionId := some s.sessionId, appName := some s.appName })
    exact ⟨rfl, h1, h2, h3⟩

/-- Witness for C5: with an established triple the submission makes zero
session calls; with an unset triple and a succeeding backend it makes exactly
one. -/
theorem established_session_not_reinvoked_instance :
    (handleSubmit
        ⟨fun _ => Except.ok ⟨"u2", "s2", "a2"⟩, fun _ => 0, [], none, fun _ => Frame.invalid,
          "h1", "a1", "e1"⟩ "hi"
        ⟨some ("u"), some ("s"), some ("a"), [], none, false, [], "", ""⟩).sessionCalls = 0 ∧
    (handleSubmit
        ⟨fun _ => Except.ok ⟨"u2", "s2", "a2"⟩, fun _ => 0, [], none, fun _ => Frame.invalid,
          "h1", "a1", "e1"⟩ "hi"
        ⟨none, none, none, [], none, false, [], "", ""⟩).sessionCalls = 1 := by
  constructor
  · exact ((established_session_not_reinvoked
      ⟨fun _ => Except.ok ⟨"u2", "s2", "a2"⟩, fun _ => 0, [], none, fun _ => Frame.invalid,
        "h1", "a1", "e1"⟩
      ⟨fun _ => Except.ok ⟨"u2", "s2", "a2"⟩, fun _ => 0, [], none, fun _ => Frame.invalid,
        "h1", "a1", "e1"⟩ "hi" "hi"
      ⟨some ("u"), some ("s"), some ("a"), [], none, false, [], "", ""⟩
      ⟨"u2", "s2", "a2"⟩).1 rfl).1
  · exact ((established_session_not_reinvoked
      ⟨fun _ => Except.ok ⟨"u2", "s2", "a2"⟩, fun _ => 0, [], none, fun _ => Frame.invalid,
        "h1", "a1", "e1"⟩
      ⟨fun _ => Except.ok ⟨"u2", "s2", "a2"⟩, fun _ => 0, [], none, fun _ => Frame.invalid,
        "h1", "a1", "e1"⟩ "hi" "hi"
      ⟨none, none, none, [], none, false, [], "", ""⟩
      ⟨"u2", "s2", "a2"⟩).2 rfl rfl rfl (Nat.zero_le _)).1

/-- When the run request (or the stream) fails, the turn body appends the
human message, the open ai message holding the fragments accumulated before
the failure, and a fresh `Error: ...` ai message — in that order. -/
lemma runTurn_error_messages (env : SubmitEnv) (q : String) (st2 : AppState) (e : String)
    (herr : env.runError = some e)
    (hfresh : ∀ msg ∈ st2.messages, msg.id ≠ env.aiMessageId)
    (hu : env.userMessageId ≠ env.aiMessageId) :
    ∃ aiMsg : MessageWithAgent,
      (runTurn env q st2).messages =
        st2.messages ++
          [{ type := MsgType.human, content := q, id := env.userMessageId, agent := none },
           aiMsg,
           { type := MsgType.ai, content := "Error: " ++ e, id := env.errorMessageId,
             agent := none }] ∧
      aiMsg.id = env.aiMessageId ∧ aiMsg.type = MsgType.ai ∧
      aiMsg.content = jsTrim (String.join ((allFragments
        ((sseDispatched env.runChunks).map env.parse)).map (· ++ " "))) := by
  simp only [runTurn, herr]
  obtain ⟨aiMsg, hm, hid, hty, hc⟩ := processFrames_turn_shape env.aiMessageId
    ((sseDispatched env.runChunks).map env.parse) st2.messages
    ({ type := MsgType.human, content := q, id := env.userMessageId, agent := none })
    ({ type := MsgType.ai, content := "", id := env.aiMessageId, agent := some ("") })
    ({ st2 with currentAgent := "", accumulatedText := "", messages := (st2.messages ++ [{ type := MsgType.human, content := q, id := env.userMessageId, agent := none }]) ++ [{ type := MsgType.ai, content := "", id := env.aiMessageId, agent := some ("") }] })
    (by rw [List.append_assoc]; rfl) rfl hfresh hu rfl rfl
  refine ⟨aiMsg, ?_, hid, hty, hc⟩
  show (processFrames env.aiMessageId ((sseDispatched env.runChunks).map env.parse) _).messages
      ++ _ = _
  rw [hm, List.append_assoc]
  rfl

/-- The run-failure outcome of a whole submission from an established state. -/
lemma handleSubmit_run_error_shape (env : SubmitEnv) (q : String) (st : AppState) (e : String)
    (hq : (jsTrim q == "") = false)
    (ht : sessionEstablished st = true)
    (herr : env.runError = some e)
    (hfresh : ∀ msg ∈ st.messages, msg.id ≠ env.aiMessageId)
    (hu : env.userMessageId ≠ env.aiMessageId) :
    ∃ aiMsg : MessageWithAgent,
      (handleSubmit env q st).state.messages =
        st.messages ++
          [{ type := MsgType.human, content := q, id := env.userMessageId, agent := none },
           aiMsg,
           { type := MsgType.ai, content := "Error: " ++ e, id := env.errorMessageId,
             agent := none }] ∧
      aiMsg.id = env.aiMessageId ∧ aiMsg.type = MsgType.ai ∧
      aiMsg.content = jsTrim (String.join ((allFragments
        ((sseDispatched env.runChunks).map env.parse)).map (· ++ " "))) ∧
      (handleSubmit env q st).uncaught = none := by
  rw [handleSubmit_established_eq env q st hq ht]
  obtain ⟨aiMsg, hm, hid, hty, hc⟩ :=
    runTurn_error_messages env q ({ st with isLoading := true }) e herr hfresh hu
  exact ⟨aiMsg, hm, hid, hty, hc, rfl⟩

/-- C7: if the run endpoint returns non-2xx or the fetch throws, the turn
aborts without an uncaught exception and the transcript gains a new ai
message whose content is exactly the string `Error: ` followed by the error
message; every message of prior turns is unchanged, in place. -/
theorem run_failure_appends_error_message (env : SubmitEnv) (q : String) (st : AppState)
    (e : String)
    (hq : (jsTrim q == "") = false)
    (ht : sessionEstablished st = true)
    (herr : env.runError = some e)
    (hfresh : ∀ msg ∈ st.messages, msg.id ≠ env.aiMessageId)
    (hu : env.userMessageId ≠ env.aiMessageId) :
    ∃ aiMsg : MessageWithAgent,
      (handleSubmit env q st).state.messages =
        st.messages ++
          [{ type := MsgType.human, content := q, id := env.userMessageId, agent := none },
           aiMsg,
           { type := MsgType.ai, content := "Error: " ++ e, id := env.errorMessageId,
             agent := none }] ∧
      (handleSubmit env q st).uncaught = none := by
  obtain ⟨aiMsg, hm, _, _, _, hun⟩ :=
    handleSubmit_run_error_shape env q st e hq ht herr hfresh hu
  exact ⟨aiMsg, hm, hun⟩

/-- Witness for C7: an HTTP 500 run failure appends exactly the error ai
message after the human and open ai messages. -/
theorem run_failure_appends_error_message_instance :
    (handleSubmit
        ⟨fun _ => Except.ok ⟨"u2", "s2", "a2"⟩, fun _ => 0, [], some ("Failed: Internal Server Error"), fun _ => Frame.invalid, "h1", "a1", "e1"⟩
        "hi" ⟨some ("u"), some ("s"), some ("a"), [], none, false, [], "", ""⟩).state.messages.getLast?
      = some ⟨MsgType.ai, "Error: Failed: Internal Server Error", "e1", none⟩ := by
  obtain ⟨aiMsg, hm, hun⟩ := run_failure_appends_error_message
    ⟨fun _ => Except.ok ⟨"u2", "s2", "a2"⟩, fun _ => 0, [], some ("Failed: Internal Server Error"), fun _ => Frame.invalid, "h1", "a1", "e1"⟩
    "hi" ⟨some ("u"), some ("s"), some ("a"), [], none, false, [], "", ""⟩
    "Failed: Internal Server Error" rfl rfl rfl (by simp) (by decide)
  rw [hm]
  simp

/-- C9: when the run request fails after the turn opened its ai message, the
open ai message remains in the transcript holding exactly the content
accumulated from the frames dispatched before the failure (empty if none),
and the error text goes into a separate new ai message with a distinct id —
the error is never written into the open ai message. -/
theorem run_failure_preserves_open_message (env : SubmitEnv) (q : String) (st : AppState)
    (e : String)
    (hq : (jsTrim q == "") = false)
    (ht : sessionEstablished st = true)
    (herr : env.runError = some e)
    (hfresh : ∀ msg ∈ st.messages, msg.id ≠ env.aiMessageId)
    (hu : env.userMessageId ≠ env.aiMessageId)
    (hd : env.aiMessageId ≠ env.errorMessageId) :
    ∃ aiMsg : MessageWithAgent,
      (handleSubmit env q st).state.messages =
        st.messages ++
          [{ type := MsgType.human, content := q, id := env.userMessageId, agent := none },
           aiMsg,
           { type := MsgType.ai, content := "Error: " ++ e, id := env.errorMessageId,
             agent := none }] ∧
      aiMsg.id = env.aiMessageId ∧ aiMsg.type = MsgType.ai ∧
      aiMsg.content = jsTrim (String.join ((allFragments
        ((sseDispatched env.runChunks).map env.parse)).map (· ++ " "))) ∧
      aiMsg.id ≠ env.errorMessageId := by
  obtain ⟨aiMsg, hm, hid, hty, hc, _⟩ :=
    handleSubmit_run_error_shape env q st e hq ht herr hfresh hu
  exact ⟨aiMsg, hm, hid, hty, hc, by rw [hid]; exact hd⟩

/-- Witness for C9: a mid-stream failure after one dispatched fragment leaves
the open ai message holding that fragment, with the error in its own
message. -/
theorem run_failure_preserves_open_message_instance :
    (handleSubmit
        ⟨fun _ => Except.ok ⟨"u2", "s2", "a2"⟩, fun _ => 0, [("data: x\n".toList)], some ("network error"), fun _ => Frame.valid (some ⟨some [⟨some ("Partial")⟩]⟩) (some ("product_agent")), "h1", "a1", "e1"⟩
        "hi" ⟨some ("u"), some ("s"), some ("a"), [], none, false, [], "", ""⟩).state.messages.map
      MessageWithAgent.content = ["hi", "Partial", "Error: network error"] := by
  obtain ⟨aiMsg, hm, hid, hty, hc, hne⟩ := run_failure_preserves_open_message
    ⟨fun _ => Except.ok ⟨"u2", "s2", "a2"⟩, fun _ => 0, [("data: x\n".toList)], some ("network error"), fun _ => Frame.valid (some ⟨some [⟨some ("Partial")⟩]⟩) (some ("product_agent")), "h1", "a1", "e1"⟩
    "hi" ⟨some ("u"), some ("s"), some ("a"), [], none, false, [], "", ""⟩
    "network error" rfl rfl rfl (by simp) (by decide) (by decide)
  rw [hm]
  have hcv : aiMsg.content = "Partial" := by
    rw [hc]
    rfl
  simp [hcv]

/-- Counterexample to C3: when every session-creation attempt fails with
`network down`, the submission ends with that very same per-attempt error
escaping `handleSubmit` uncaught — it is not a distinct error kind, and no
inline transcript error message is appended (the transcript stays empty);
only the session state is indeed left unset. -/
theorem session_failure_not_inline_counterexample :
    (handleSubmit
        ⟨fun _ => Except.error ("network down"), fun _ => 0, [], none, fun _ => Frame.invalid,
          "h1", "a1", "e1"⟩ "hi"
        ⟨none, none, none, [], none, false, [], "", ""⟩).uncaught = some ("network down") ∧
    (⟨fun _ => Except.error ("network down"), fun _ => 0, [], none, fun _ => Frame.invalid,
        "h1", "a1", "e1"⟩ : SubmitEnv).sessionFn 0 = Except.error ("network down") ∧
    (handleSubmit
        ⟨fun _ => Except.error ("network down"), fun _ => 0, [], none, fun _ => Frame.invalid,
          "h1", "a1", "e1"⟩ "hi"
        ⟨none, none, none, [], none, false, [], "", ""⟩).state.messages = [] ∧
    (handleSubmit
        ⟨fun _ => Except.error ("network down"), fun _ => 0, [], none, fun _ => Frame.invalid,
          "h1", "a1", "e1"⟩ "hi"
        ⟨none, none, none, [], none, false, [], "", ""⟩).state.sessionId = none :=
  ⟨rfl, rfl, rfl, rfl⟩

/-- C3 amended: if session creation fails on every retry attempt, the
submission rethrows the LAST per-attempt transient error after ten calls —
not a distinct error kind — and if the wall-clock ceiling is exceeded it
throws the distinct retry-timeout error before any call; in both cases the
error escapes the query submission uncaught, no transcript error message is
appended, and session state is left unset (the loading flag stuck true). -/
theorem session_failure_propagates_uncaught (env : SubmitEnv) (q : String) (st : AppState)
    (errs : Nat → String)
    (hq : (jsTrim q == "") = false)
    (ht : sessionEstablished st = false) :
    ((∀ i, env.sessionFn i = Except.error (errs i)) → (∀ i, env.elapsedAt i ≤ 120000) →
      handleSubmit env q st =
        { state := { st with isLoading := true }, uncaught := some (errs 9),
          sessionCalls := 10 }) ∧
    (120000 < env.elapsedAt 0 →
      handleSubmit env q st =
        { state := { st with isLoading := true },
          uncaught := some ("Retry timeout after 120000ms"), sessionCalls := 0 }) := by
  constructor
  · intro hfn hel
    have hb : retryWithBackoff env.sessionFn env.elapsedAt 10 120000
        = (.error (errs 9), 10) := by
      rw [retryWithBackoff]
      simpa using retryGo_all_fail env.sessionFn env.elapsedAt 120000 errs hfn hel 10 0 none
        (by omega)
    exact handleSubmit_boot_fail_eq env q st hq ht (errs 9) 10 hb
  · intro hel
    have hb : retryWithBackoff env.sessionFn env.elapsedAt 10 120000
        = (.error ("Retry timeout after " ++ toString 120000 ++ "ms"), 0) := by
      rw [retryWithBackoff]
      exact retryGo_timeout env.sessionFn env.elapsedAt 120000 10 0 none hel (by omega)
    have hs : ("Retry timeout after " ++ toString 120000 ++ "ms" : String)
        = "Retry timeout after 120000ms" := rfl
    rw [hs] at hb
    exact handleSubmit_boot_fail_eq env q st hq ht _ 0 hb

/-- Witness for the amended C3 on both failure paths. -/
theorem session_failure_propagates_uncaught_instance :
    handleSubmit
        ⟨fun _ => Except.error ("boom"), fun _ => 0, [], none, fun _ => Frame.invalid,
          "h1", "a1", "e1"⟩ "hi"
        ⟨none, none, none, [], none, false, [], "", ""⟩
      = { state := ⟨none, none, none, [], none, true, [], "", ""⟩, uncaught := some ("boom"),
          sessionCalls := 10 } ∧
    handleSubmit
        ⟨fun _ => Except.error ("boom"), fun _ => 200000, [], none, fun _ => Frame.invalid,
          "h1", "a1", "e1"⟩ "hi"
        ⟨none, none, none, [], none, false, [], "", ""⟩
      = { state := ⟨none, none, none, [], none, true, [], "", ""⟩,
          uncaught := some ("Retry timeout after 120000ms"), sessionCalls := 0 } := by
  constructor
  · exact (session_failure_propagates_uncaught
      ⟨fun _ => Except.error ("boom"), fun _ => 0, [], none, fun _ => Frame.invalid,
        "h1", "a1", "e1"⟩ "hi"
      ⟨none, none, none, [], none, false, [], "", ""⟩ (fun _ => "boom") rfl rfl).1
      (fun _ => rfl) (fun _ => Nat.zero_le _)
  · exact (session_failure_propagates_uncaught
      ⟨fun _ => Except.error ("boom"), fun _ => 200000, [], none, fun _ => Frame.invalid,
        "h1", "a1", "e1"⟩ "hi"
      ⟨none, none, none, [], none, false, [], "", ""⟩ (fun _ => "boom") rfl rfl).2
      (by show (120000 : Nat) < 200000; omega)

end AgenticCommerce
